import Mathlib

/-!
Shallow embedding of the chess-puzzle trainer's Puzzle Session Controller
(src/app.js).  The rules engine (chess.js) is an external collaborator,
treated as a black box behind the interface it is consumed through; the
session controller's state and handlers are translated statement by
statement.  DOM writes become record fields (text contents, visibility),
`alert` calls append to an event list, and each `renderBoard` invocation
appends a snapshot of what it reads (the position and the selection
overlay) to a render log.
-/

set_option autoImplicit false

universe u

variable {γ : Type u}

/-- A puzzle definition from the static catalog (`puzzles` in app.js). -/
structure Puzzle where
  name : String
  fen : String
  solution : List String
  side : Char
  mateIn : Nat
  quote : String
deriving Inhabited, Repr

/-- The static puzzle catalog of app.js (three entries). -/
def puzzles : List Puzzle :=
  [ { name := "El Molino"
    , fen := "r1bq2r1/b4pk1/p1pp1p2/1p2pP2/1P2P1PB/3P4/1PPQ2P1/R3K2R w - - 0 1"
    , solution := ["Qh6+", "Kxh6", "Bxf6#"]
    , side := 'w'
    , mateIn := 2
    , quote := "“La estrategia es el arte de la batalla.” – Emanuel Lasker" }
  , { name := "Mate simple"
    , fen := "7k/5Q2/8/8/8/8/8/7K w - - 0 1"
    , solution := ["Qf8#"]
    , side := 'w'
    , mateIn := 1
    , quote := "“Ver una jugada más allá que tu oponente marca la diferencia.”" }
  , { name := "Dama y rey"
    , fen := "6k1/5ppp/8/8/8/8/5PPP/6K1 w - - 0 1"
    , solution := ["Kd2", "Kf1", "Qd8#"]
    , side := 'w'
    , mateIn := 3
    , quote := "“La paciencia y la visión a largo plazo triunfan.”" } ]

/-- The piece description `game.get(square)` returns: app.js only reads
`piece.color` ('w' or 'b'); `ptype` is the piece letter. -/
structure EnginePiece where
  color : Char
  ptype : Char
deriving DecidableEq, Repr

/-- A verbose legal move as returned by `game.moves({verbose: true})`;
app.js only reads its `.to` field. -/
structure VerboseMove where
  toSq : String
deriving DecidableEq, Repr

/-- The argument object of `game.move({from, to, promotion})`. -/
structure MoveReq where
  fromSq : String
  toSq : String
  promotion : Char
deriving DecidableEq, Repr

/-- The rules-engine interface app.js consumes from chess.js, with the
engine's mutable position made an explicit state of type `γ`:
`move` returns `some` of the updated position on success and `none` when
the move is rejected (chess.js returns the move object or `null`). -/
structure ChessEngine (γ : Type u) where
  ofFen : String → γ
  move : γ → MoveReq → Option γ
  in_checkmate : γ → Bool
  historyLength : γ → Nat
  turn : γ → Char
  get : γ → String → Option EnginePiece
  moves : γ → String → List VerboseMove

/-- Part of the rules-engine contract: a successfully applied move grows
the engine's move history by exactly one half-move. -/
def MoveIncrementsHistory (E : ChessEngine γ) : Prop :=
  ∀ g req g2, E.move g req = some g2 →
    E.historyLength g2 = E.historyLength g + 1

/-- The session controller's state: the module-level mutable variables of
app.js plus the DOM surfaces it writes.  `alerts` records the `alert`
notifications surfaced so far and `renders` records, for each
`renderBoard` call, the position and selection overlay it displayed. -/
structure SessionState (γ : Type u) where
  currentPuzzleIndex : Nat
  hintCount : Nat
  starsEarned : Nat
  game : γ
  selectedSquare : Option String
  legalMoves : List String
  infoText : String
  starsText : String
  nextBtnVisible : Bool
  progressText : String
  alerts : List String
  renders : List (γ × Option String × List String)

/-- `'c'.repeat(n)` from JS. -/
def strRepeat (c : Char) (n : Nat) : String :=
  String.mk (List.replicate n c)

/-- `renderBoard()`: redraws the board from `game` with the
selection/legal-move highlight overlay; modelled as appending the
rendered snapshot to the render log. -/
def renderBoard (s : SessionState γ) : SessionState γ :=
  { s with renders := s.renders ++ [(s.game, s.selectedSquare, s.legalMoves)] }

/-- The level/status line `loadPuzzle` writes to the `info` element. -/
def infoTextFor (index : Nat) (p : Puzzle) : String :=
  "Nivel " ++ toString (index + 1) ++ ": " ++ p.name ++ " – " ++
    (if p.mateIn = 1 then "Mate en 1" else "Mate en " ++ toString p.mateIn)

/-- `loadPuzzle(index)` from app.js: resets hints and stars, builds a
fresh engine position from the puzzle's FEN, clears the selection state,
re-renders, and updates the info line, star display and next-button
visibility. -/
def loadPuzzle (E : ChessEngine γ) (index : Nat) (s : SessionState γ) :
    SessionState γ :=
  let puzzle := puzzles.getD index default
  let s1 := renderBoard
    { s with hintCount := 0
           , starsEarned := 3
           , game := E.ofFen puzzle.fen
           , selectedSquare := none
           , legalMoves := [] }
  { s1 with infoText := infoTextFor index puzzle
          , starsText := "★★★"
          , nextBtnVisible := false }

/-- `showHint()` from app.js: a no-op when the hint pool is exhausted;
otherwise reveals the next solution move, increments the hint counter,
recomputes the stars and refreshes the star display. -/
def showHint (s : SessionState γ) : SessionState γ :=
  let puzzle := puzzles.getD s.currentPuzzleIndex default
  if s.hintCount ≥ puzzle.solution.length then s
  else
    let hintMove := puzzle.solution.getD s.hintCount ""
    let newHintCount := s.hintCount + 1
    let newStars := max 1 (3 - newHintCount)
    { s with alerts := s.alerts ++ ["Asesoría: intenta jugar " ++ hintMove]
           , hintCount := newHintCount
           , starsEarned := newStars
           , starsText :=
               strRepeat '★' newStars ++ strRepeat '☆' (3 - newStars) }

/-- `updateStatus()` from app.js: re-renders, then either surfaces the
success notification and reveals the next button (checkmate), reloads the
current puzzle after a notification (move ceiling exceeded), or does
nothing further. -/
def updateStatus (E : ChessEngine γ) (s : SessionState γ) : SessionState γ :=
  let s1 := renderBoard s
  if E.in_checkmate s1.game then
    let puzzle := puzzles.getD s1.currentPuzzleIndex default
    { s1 with
        alerts := s1.alerts ++
          ["¡Excelente! Has resuelto el puzzle \"" ++ puzzle.name ++ "\".\n"
            ++ puzzle.quote]
      , nextBtnVisible := true }
  else
    let puzzle := puzzles.getD s1.currentPuzzleIndex default
    let maxPlies := puzzle.mateIn * 2
    if E.historyLength s1.game > maxPlies then
      loadPuzzle E s1.currentPuzzleIndex
        { s1 with
            alerts := s1.alerts ++
              ["Has realizado demasiados movimientos sin lograr mate. Reiniciando el puzzle."] }
    else s1

/-- `handleSquareClick(event)` from app.js, with the clicked square made
an explicit argument.  Branch order follows the source: legal-target move
attempt first (queen promotion always requested; on engine rejection
nothing happens), then deselection of the same square, then
selection/deselection by occupant, each of the latter ending in a
re-render. -/
def handleSquareClick (E : ChessEngine γ) (clickedSquare : String)
    (s : SessionState γ) : SessionState γ :=
  match s.selectedSquare, s.legalMoves.contains clickedSquare with
  | some sel, true =>
    match E.move s.game
        { fromSq := sel, toSq := clickedSquare, promotion := 'q' } with
    | some g =>
        updateStatus E { s with game := g, selectedSquare := none, legalMoves := [] }
    | none => s
  | osel, _ =>
    if osel = some clickedSquare then
      renderBoard { s with selectedSquare := none, legalMoves := [] }
    else
      match E.get s.game clickedSquare with
      | some piece =>
          if piece.color = E.turn s.game then
            renderBoard
              { s with selectedSquare := some clickedSquare
                     , legalMoves :=
                         (E.moves s.game clickedSquare).map VerboseMove.toSq }
          else
            renderBoard { s with selectedSquare := none, legalMoves := [] }
      | none => renderBoard { s with selectedSquare := none, legalMoves := [] }

/-- `updateProgress()` from app.js. -/
def updateProgress (s : SessionState γ) : SessionState γ :=
  { s with progressText :=
      "Puzzle " ++ toString (s.currentPuzzleIndex + 1) ++ " de "
        ++ toString puzzles.length }

/-- `nextPuzzle()` from app.js: increments the index, wraps (with a
completion notification) past the last catalog entry, refreshes the
progress indicator, then loads the resulting puzzle. -/
def nextPuzzle (E : ChessEngine γ) (s : SessionState γ) : SessionState γ :=
  let s1 := { s with currentPuzzleIndex := s.currentPuzzleIndex + 1 }
  let s2 :=
    if s1.currentPuzzleIndex ≥ puzzles.length then
      { s1 with
          alerts := s1.alerts ++
            ["¡Felicidades! Has completado todos los puzzles disponibles en esta demo."]
        , currentPuzzleIndex := 0 }
    else s1
  let s3 := updateProgress s2
  loadPuzzle E s3.currentPuzzleIndex s3

/-- The module-level variable values before `init()` runs; `game` is
uninitialized in the source, so its initial value `g0` is a parameter. -/
def initState (g0 : γ) : SessionState γ :=
  { currentPuzzleIndex := 0
  , hintCount := 0
  , starsEarned := 3
  , game := g0
  , selectedSquare := none
  , legalMoves := []
  , infoText := ""
  , starsText := ""
  , nextBtnVisible := false
  , progressText := ""
  , alerts := []
  , renders := [] }

/-- `init()` from app.js: loads puzzle 0 and refreshes the progress bar
(the listener registrations have no state effect). -/
def initApp (E : ChessEngine γ) (g0 : γ) : SessionState γ :=
  updateProgress (loadPuzzle E 0 (initState g0))

/-!  Concrete engine instances, used to evaluate the controller on
concrete inputs.  They are minimal models of the engine interface:
positions are natural-number move counters. -/

/-- Engine where every move succeeds and advances the counter, no
position is checkmate, the history length is the counter itself, and
every square holds a white piece with one legal destination. -/
def incEngine : ChessEngine Nat :=
  { ofFen := fun _ => 0
  , move := fun g _ => some (g + 1)
  , in_checkmate := fun _ => false
  , historyLength := fun g => g
  , turn := fun _ => 'w'
  , get := fun _ _ => some { color := 'w', ptype := 'q' }
  , moves := fun _ _ => [{ toSq := "e4" }] }

/-- Engine like `incEngine` but where every position is checkmate. -/
def mateEngine : ChessEngine Nat :=
  { incEngine with in_checkmate := fun _ => true }

/-- Engine like `incEngine` but whose `move` rejects every request. -/
def rejectEngine : ChessEngine Nat :=
  { incEngine with move := fun _ _ => none }

/-- The observable session state enumerated by the specification:
puzzle index, hint counter, star rating, engine position, selection,
legal targets, and the display outputs (level line, star glyphs,
advance-control visibility, progress line, notifications shown). -/
def obs (s : SessionState γ) :
    Nat × Nat × Nat × γ × Option String × List String × String × String ×
      Bool × String × List String :=
  (s.currentPuzzleIndex, s.hintCount, s.starsEarned, s.game,
   s.selectedSquare, s.legalMoves, s.infoText, s.starsText,
   s.nextBtnVisible, s.progressText, s.alerts)

/-- The selection invariant of the data model: either nothing is selected
and the legal-target set is empty, or a square is selected and the
legal-target set is exactly the destination squares the engine reports
for it in the current position. -/
def SelInv (E : ChessEngine γ) (s : SessionState γ) : Prop :=
  (s.selectedSquare = none ∧ s.legalMoves = []) ∨
  (∃ sq, s.selectedSquare = some sq ∧
    s.legalMoves = (E.moves s.game sq).map VerboseMove.toSq)

/-- One user-originated operation of the session controller. -/
inductive SessionOp (E : ChessEngine γ) :
    SessionState γ → SessionState γ → Prop
  | click (sq : String) (s : SessionState γ) :
      SessionOp E s (handleSquareClick E sq s)
  | hint (s : SessionState γ) : SessionOp E s (showHint s)
  | load (i : Nat) (s : SessionState γ) : SessionOp E s (loadPuzzle E i s)
  | advance (s : SessionState γ) : SessionOp E s (nextPuzzle E s)

/-- States reachable from program start by any sequence of operations. -/
inductive Reachable (E : ChessEngine γ) : SessionState γ → Prop
  | start (g0 : γ) : Reachable E (initApp E g0)
  | step {s t : SessionState γ} :
      Reachable E s → SessionOp E s t → Reachable E t

/-- The last rendered snapshot displays exactly the current position and
the current selection/highlight overlay. -/
def lastRenderCurrent (s : SessionState γ) : Prop :=
  s.renders.getLast? = some (s.game, s.selectedSquare, s.legalMoves)

/-- A session state with `e2` selected and `e4` as its lone legal
target. -/
def rejectState : SessionState Nat :=
  { initState 0 with selectedSquare := some "e2", legalMoves := ["e4"] }

/-- `incEngine` satisfies the history part of the engine contract. -/
theorem incEngine_incr : MoveIncrementsHistory incEngine := by
  intro g req g2 h
  simp only [incEngine, Option.some.injEq] at h
  simp [incEngine, ← h]

/-- C5: for every catalog index i, after loadPuzzle(i) the hint counter
is 0, the star rating is 3, the selection is cleared with an empty
legal-target set, the engine position is a fresh instance built from
catalog[i].position, the star display shows three filled glyphs, and the
advance control is hidden. -/
theorem loadPuzzle_reset_spec (E : ChessEngine γ) (i : Nat)
    (hi : i < puzzles.length) (s : SessionState γ) :
    (loadPuzzle E i s).hintCount = 0 ∧
    (loadPuzzle E i s).starsEarned = 3 ∧
    (loadPuzzle E i s).selectedSquare = none ∧
    (loadPuzzle E i s).legalMoves = [] ∧
    (loadPuzzle E i s).game = E.ofFen (puzzles[i].fen) ∧
    (loadPuzzle E i s).starsText = "★★★" ∧
    (loadPuzzle E i s).nextBtnVisible = false := by
  simp [loadPuzzle, renderBoard, List.getElem?_eq_getElem hi]

/-- Witness for C5 at the concrete index 1 and the start state. -/
theorem loadPuzzle_reset_spec_witness :
    (loadPuzzle incEngine 1 (initState 0)).hintCount = 0 ∧
    (loadPuzzle incEngine 1 (initState 0)).starsEarned = 3 ∧
    (loadPuzzle incEngine 1 (initState 0)).selectedSquare = none ∧
    (loadPuzzle incEngine 1 (initState 0)).legalMoves = [] ∧
    (loadPuzzle incEngine 1 (initState 0)).game =
      incEngine.ofFen ("7k/5Q2/8/8/8/8/8/7K w - - 0 1") := by
  have h := loadPuzzle_reset_spec incEngine 1 (by decide) (initState 0)
  exact ⟨h.1, h.2.1, h.2.2.1, h.2.2.2.1, h.2.2.2.2.1⟩

/-- C9: loadPuzzle is idempotent: loading the same index twice in
succession yields exactly the same observable session state (index,
hints, stars, position, selection, legal targets, display outputs) as
loading it once. -/
theorem loadPuzzle_idempotent (E : ChessEngine γ) (i : Nat)
    (s : SessionState γ) :
    obs (loadPuzzle E i (loadPuzzle E i s)) = obs (loadPuzzle E i s) := rfl

/-- C10: requestHint never modifies the engine position, the selection
state, the legal-target set, the puzzle index, nor any display surface
other than the star display: whether or not the hint pool is exhausted,
its only state effects are on hintsUsed, starRating and the star
glyphs. -/
theorem showHint_frame (s : SessionState γ) :
    (showHint s).game = s.game ∧
    (showHint s).selectedSquare = s.selectedSquare ∧
    (showHint s).legalMoves = s.legalMoves ∧
    (showHint s).currentPuzzleIndex = s.currentPuzzleIndex ∧
    (showHint s).infoText = s.infoText ∧
    (showHint s).nextBtnVisible = s.nextBtnVisible ∧
    (showHint s).progressText = s.progressText ∧
    (showHint s).renders = s.renders := by
  simp only [showHint]
  split <;> simp

/-- Helper: `updateStatus` keeps a cleared selection cleared — every one
of its branches either leaves the selection fields alone or reloads the
puzzle, which clears them. -/
theorem updateStatus_selection_clear (E : ChessEngine γ) (s : SessionState γ)
    (h1 : s.selectedSquare = none) (h2 : s.legalMoves = []) :
    (updateStatus E s).selectedSquare = none ∧
    (updateStatus E s).legalMoves = [] := by
  simp only [updateStatus, renderBoard]
  split
  · exact ⟨h1, h2⟩
  · split
    · exact ⟨rfl, rfl⟩
    · exact ⟨h1, h2⟩

/-- C3: after an accepted move, when the engine reports checkmate, the
success notification including the active puzzle's flavor text is
surfaced and the advance control becomes visible; the puzzle index is
unchanged (no auto-advance) and the hints, stars and position are
unchanged (no reload), the move-ceiling check not being applied. -/
theorem updateStatus_checkmate_spec (E : ChessEngine γ) (s : SessionState γ)
    (hi : s.currentPuzzleIndex < puzzles.length)
    (hcm : E.in_checkmate s.game = true) :
    (updateStatus E s).alerts = s.alerts ++
      ["¡Excelente! Has resuelto el puzzle \""
        ++ (puzzles[s.currentPuzzleIndex]).name ++ "\".\n"
        ++ (puzzles[s.currentPuzzleIndex]).quote] ∧
    (updateStatus E s).nextBtnVisible = true ∧
    (updateStatus E s).currentPuzzleIndex = s.currentPuzzleIndex ∧
    (updateStatus E s).hintCount = s.hintCount ∧
    (updateStatus E s).starsEarned = s.starsEarned ∧
    (updateStatus E s).game = s.game ∧
    (updateStatus E s).selectedSquare = s.selectedSquare ∧
    (updateStatus E s).legalMoves = s.legalMoves := by
  simp [updateStatus, renderBoard, hcm, List.getElem?_eq_getElem hi]

/-- Witness for C3: on an always-checkmate engine at the start state, the
advance control is revealed and the position is untouched. -/
theorem updateStatus_checkmate_spec_witness :
    (updateStatus mateEngine (initState 0)).nextBtnVisible = true ∧
    (updateStatus mateEngine (initState 0)).game = 0 := by
  have h := updateStatus_checkmate_spec mateEngine (initState 0) (by decide) rfl
  exact ⟨h.2.1, h.2.2.2.2.2.1⟩

/-- C2 counterexample: the move-ceiling reload is not silent.  At puzzle
index 0 (`mateIn = 2`, ceiling 4) with 5 half-moves played and no
checkmate, the reload surfaces a user notification. -/
theorem updateStatus_ceiling_not_silent :
    (initState 5 : SessionState Nat).alerts = [] ∧
    (updateStatus incEngine (initState 5)).alerts =
      ["Has realizado demasiados movimientos sin lograr mate. Reiniciando el puzzle."] :=
  ⟨rfl, rfl⟩

/-- C2 (amended): after a move, if the position is not checkmate and the
half-move count exceeds mateDistance * 2 for the active puzzle, the
puzzle at the same index is reloaded — hints reset to 0, stars to 3, the
position to a fresh instance of the puzzle's initial position — and the
reload is accompanied by a user notification (it is not silent). -/
theorem updateStatus_ceiling_reload_spec (E : ChessEngine γ)
    (s : SessionState γ) (hi : s.currentPuzzleIndex < puzzles.length)
    (hcm : E.in_checkmate s.game = false)
    (hover : E.historyLength s.game >
      (puzzles[s.currentPuzzleIndex]).mateIn * 2) :
    (updateStatus E s).hintCount = 0 ∧
    (updateStatus E s).starsEarned = 3 ∧
    (updateStatus E s).game = E.ofFen (puzzles[s.currentPuzzleIndex]).fen ∧
    (updateStatus E s).selectedSquare = none ∧
    (updateStatus E s).legalMoves = [] ∧
    (updateStatus E s).currentPuzzleIndex = s.currentPuzzleIndex ∧
    (updateStatus E s).alerts = s.alerts ++
      ["Has realizado demasiados movimientos sin lograr mate. Reiniciando el puzzle."] := by
  simp [updateStatus, renderBoard, loadPuzzle, hcm, hover,
    List.getElem?_eq_getElem hi]

/-- Witness for C2's amended theorem at puzzle 0 with 5 half-moves. -/
theorem updateStatus_ceiling_reload_spec_witness :
    (updateStatus incEngine (initState 5)).hintCount = 0 ∧
    (updateStatus incEngine (initState 5)).starsEarned = 3 ∧
    (updateStatus incEngine (initState 5)).game = 0 := by
  have h := updateStatus_ceiling_reload_spec incEngine (initState 5)
    (by decide) rfl (by decide)
  exact ⟨h.1, h.2.1, h.2.2.1⟩

/-- C1: with a selected square and an interacted square S inside the
current legal-target set, the move selected → S is applied through the
engine with queen promotion requested; on acceptance the selection
returns to IDLE with an emptied legal-target set, the engine's half-move
count grows by exactly one (by the engine contract), and post-move
status evaluation runs on the resulting state; on rejection the session
state is left entirely unchanged. -/
theorem handleClick_legalTarget_spec (E : ChessEngine γ)
    (hE : MoveIncrementsHistory E) (sq sel : String) (s : SessionState γ)
    (hsel : s.selectedSquare = some sel)
    (hleg : s.legalMoves.contains sq = true) :
    (∀ g, E.move s.game { fromSq := sel, toSq := sq, promotion := 'q' }
          = some g →
      handleSquareClick E sq s =
        updateStatus E
          { s with game := g, selectedSquare := none, legalMoves := [] } ∧
      E.historyLength g = E.historyLength s.game + 1 ∧
      (handleSquareClick E sq s).selectedSquare = none ∧
      (handleSquareClick E sq s).legalMoves = []) ∧
    (E.move s.game { fromSq := sel, toSq := sq, promotion := 'q' } = none →
      handleSquareClick E sq s = s) := by
  constructor
  · intro g hmv
    have hstep : handleSquareClick E sq s =
        updateStatus E
          { s with game := g, selectedSquare := none, legalMoves := [] } := by
      simp only [handleSquareClick, hsel, hleg, hmv]
    refine ⟨hstep, hE _ _ _ hmv, ?_, ?_⟩
    · rw [hstep]
      exact (updateStatus_selection_clear E _ rfl rfl).1
    · rw [hstep]
      exact (updateStatus_selection_clear E _ rfl rfl).2
  · intro hmv
    simp only [handleSquareClick, hsel, hleg, hmv]

/-- Witness for C1: a concrete accepted move on `incEngine` clears the
selection and advances the half-move counter by one. -/
theorem handleClick_legalTarget_spec_witness :
    (handleSquareClick incEngine "e4"
      { initState 0 with
          selectedSquare := some "e2", legalMoves := ["e4"] }).selectedSquare
      = none ∧
    incEngine.historyLength 1 = incEngine.historyLength 0 + 1 := by
  have h := handleClick_legalTarget_spec incEngine incEngine_incr "e4" "e2"
    { initState 0 with selectedSquare := some "e2", legalMoves := ["e4"] }
    rfl (by decide)
  have h2 := h.1 1 rfl
  exact ⟨h2.2.2.1, h2.2.1⟩

/-- Helper: the catalog lookup with a default is the plain lookup for
in-range indices. -/
theorem puzzles_getD (i : Nat) (hi : i < puzzles.length) :
    puzzles.getD i default = puzzles[i] :=
  List.getD_eq_getElem _ _ hi

/-- Helper: `showHint` touches neither the position, the selection, the
legal targets nor the puzzle index. -/
theorem showHint_untouched (s : SessionState γ) :
    (showHint s).game = s.game ∧
    (showHint s).selectedSquare = s.selectedSquare ∧
    (showHint s).legalMoves = s.legalMoves ∧
    (showHint s).currentPuzzleIndex = s.currentPuzzleIndex := by
  simp only [showHint]
  split <;> simp

/-- Helper: one `showHint` step, characterized by whether the hint pool
is exhausted. -/
theorem showHint_step (t : SessionState γ) (i : Nat)
    (hi : i < puzzles.length) (hidx : t.currentPuzzleIndex = i) :
    (t.hintCount ≥ puzzles[i].solution.length → showHint t = t) ∧
    (t.hintCount < puzzles[i].solution.length →
      (showHint t).hintCount = t.hintCount + 1 ∧
      (showHint t).starsEarned = max 1 (3 - (t.hintCount + 1)) ∧
      (showHint t).alerts = t.alerts ++
        ["Asesoría: intenta jugar "
          ++ puzzles[i].solution.getD t.hintCount ""]) := by
  constructor
  · intro hge
    have hc : t.hintCount ≥
        (puzzles.getD t.currentPuzzleIndex default).solution.length := by
      rw [hidx, puzzles_getD i hi]
      exact hge
    simp only [showHint]
    rw [if_pos hc]
  · intro hlt
    have hc : ¬ t.hintCount ≥
        (puzzles.getD t.currentPuzzleIndex default).solution.length := by
      rw [hidx, puzzles_getD i hi]
      omega
    simp only [showHint]
    rw [if_neg hc]
    refine ⟨rfl, rfl, ?_⟩
    rw [hidx, puzzles_getD i hi]

/-- Helper: iterating `showHint` from a freshly reset state keeps the
index and gives the min/max characterization of the hint counter and the
star rating. -/
theorem showHint_iter_aux (i : Nat) (hi : i < puzzles.length)
    (s : SessionState γ) (hidx : s.currentPuzzleIndex = i)
    (h0 : s.hintCount = 0) (hs : s.starsEarned = 3) (h : Nat) :
    (showHint^[h] s).currentPuzzleIndex = i ∧
    (showHint^[h] s).hintCount = min h (puzzles[i].solution.length) ∧
    (showHint^[h] s).starsEarned =
      max 1 (3 - min h (puzzles[i].solution.length)) := by
  induction h with
  | zero =>
    refine ⟨hidx, ?_, ?_⟩ <;> simp [h0, hs]
  | succ n ih =>
    obtain ⟨ih1, ih2, ih3⟩ := ih
    rw [Function.iterate_succ_apply']
    have hstep := showHint_step (showHint^[n] s) i hi ih1
    by_cases hlt : n < puzzles[i].solution.length
    · have hc : (showHint^[n] s).hintCount = n := by
        rw [ih2]; omega
      have hcc : (showHint^[n] s).hintCount < puzzles[i].solution.length := by
        omega
      obtain ⟨e1, e2, _⟩ := hstep.2 hcc
      have hidx2 := (showHint_untouched (showHint^[n] s)).2.2.2
      refine ⟨hidx2.trans ih1, ?_, ?_⟩
      · rw [e1, hc]; omega
      · rw [e2, hc]; omega
    · have hc : (showHint^[n] s).hintCount ≥ puzzles[i].solution.length := by
        rw [ih2]; omega
      rw [hstep.1 hc]
      refine ⟨ih1, ?_, ?_⟩
      · rw [ih2]; omega
      · rw [ih3]; omega

/-- C4: after loading puzzle i, h requests give hintsUsed = min(h, |sol|)
and starRating = max(1, 3 - min(h, |sol|)); a request with the pool
exhausted is a no-op, a granted request reveals solutionLine[hintsUsed],
the star rating never increases across a request and never drops below
one star. -/
theorem showHint_iterated_spec (E : ChessEngine γ) (i : Nat)
    (hi : i < puzzles.length) (s0 : SessionState γ)
    (hidx : s0.currentPuzzleIndex = i) (h : Nat) :
    (showHint^[h] (loadPuzzle E i s0)).hintCount =
        min h (puzzles[i].solution.length) ∧
    (showHint^[h] (loadPuzzle E i s0)).starsEarned =
        max 1 (3 - min h (puzzles[i].solution.length)) ∧
    (h ≥ puzzles[i].solution.length →
      showHint (showHint^[h] (loadPuzzle E i s0)) =
        showHint^[h] (loadPuzzle E i s0)) ∧
    (h < puzzles[i].solution.length →
      (showHint (showHint^[h] (loadPuzzle E i s0))).alerts =
        (showHint^[h] (loadPuzzle E i s0)).alerts ++
          ["Asesoría: intenta jugar " ++ puzzles[i].solution.getD h ""]) ∧
    (showHint (showHint^[h] (loadPuzzle E i s0))).starsEarned ≤
      (showHint^[h] (loadPuzzle E i s0)).starsEarned ∧
    1 ≤ (showHint^[h] (loadPuzzle E i s0)).starsEarned := by
  have hload : (loadPuzzle E i s0).currentPuzzleIndex = i := hidx
  obtain ⟨a1, a2, a3⟩ :=
    showHint_iter_aux i hi (loadPuzzle E i s0) hload rfl rfl h
  have hstep := showHint_step (showHint^[h] (loadPuzzle E i s0)) i hi a1
  refine ⟨a2, a3, ?_, ?_, ?_, ?_⟩
  · intro hge
    exact hstep.1 (by rw [a2]; omega)
  · intro hlt
    have hc : (showHint^[h] (loadPuzzle E i s0)).hintCount = h := by
      rw [a2]; omega
    have := (hstep.2 (by omega)).2.2
    rw [hc] at this
    exact this
  · by_cases hlt : h < puzzles[i].solution.length
    · have hc : (showHint^[h] (loadPuzzle E i s0)).hintCount = h := by
        rw [a2]; omega
      have := (hstep.2 (by omega)).2.1
      rw [this, hc, a3]
      omega
    · rw [hstep.1 (by rw [a2]; omega)]
  · rw [a3]; omega

/-- Witness for C4 at puzzle 1 (one-move solution) with 2 requests: the
counter caps at 1 and the rating is 2. -/
theorem showHint_iterated_spec_witness :
    (showHint^[2] (loadPuzzle incEngine 1
      { initState 7 with currentPuzzleIndex := 1 })).hintCount = 1 ∧
    (showHint^[2] (loadPuzzle incEngine 1
      { initState 7 with currentPuzzleIndex := 1 })).starsEarned = 2 ∧
    1 ≤ (showHint^[2] (loadPuzzle incEngine 1
      { initState 7 with currentPuzzleIndex := 1 })).starsEarned := by
  have h := showHint_iterated_spec incEngine 1 (by decide)
    { initState 7 with currentPuzzleIndex := 1 } rfl 2
  exact ⟨h.1, h.2.1, h.2.2.2.2.2⟩

/-- C6: nextPuzzle increments catalogIndex, wrapping to 0 with a
catalog-complete notification when the incremented index passes the last
catalog entry; the progress indicator is refreshed (and already refreshed
on the state loadPuzzle is finally applied to), so the resulting index is
always inside [0, catalogSize). -/
theorem nextPuzzle_advance_spec (E : ChessEngine γ) (s : SessionState γ) :
    (nextPuzzle E s).currentPuzzleIndex < puzzles.length ∧
    (s.currentPuzzleIndex + 1 ≥ puzzles.length →
      (nextPuzzle E s).currentPuzzleIndex = 0 ∧
      (nextPuzzle E s).alerts = s.alerts ++
        ["¡Felicidades! Has completado todos los puzzles disponibles en esta demo."]) ∧
    (s.currentPuzzleIndex + 1 < puzzles.length →
      (nextPuzzle E s).currentPuzzleIndex = s.currentPuzzleIndex + 1 ∧
      (nextPuzzle E s).alerts = s.alerts) ∧
    (nextPuzzle E s).progressText =
      "Puzzle " ++ toString ((nextPuzzle E s).currentPuzzleIndex + 1)
        ++ " de " ++ toString puzzles.length ∧
    (∃ t : SessionState γ,
      t.progressText = (nextPuzzle E s).progressText ∧
      t.currentPuzzleIndex = (nextPuzzle E s).currentPuzzleIndex ∧
      nextPuzzle E s = loadPuzzle E t.currentPuzzleIndex t) := by
  by_cases hw : s.currentPuzzleIndex + 1 ≥ puzzles.length
  · have hdef : nextPuzzle E s =
        loadPuzzle E 0 (updateProgress
          { s with currentPuzzleIndex := 0
                 , alerts := s.alerts ++
                     ["¡Felicidades! Has completado todos los puzzles disponibles en esta demo."] }) := by
      simp only [nextPuzzle]
      rw [if_pos hw]
      rfl
    rw [hdef]
    refine ⟨?_, ?_, ?_, ?_, ?_⟩
    · show (0 : Nat) < puzzles.length
      decide
    · intro _
      exact ⟨rfl, rfl⟩
    · intro hlt
      omega
    · rfl
    · refine ⟨updateProgress
        { s with currentPuzzleIndex := 0
               , alerts := s.alerts ++
                   ["¡Felicidades! Has completado todos los puzzles disponibles en esta demo."] },
        rfl, rfl, ?_⟩
      show loadPuzzle E 0 _ = loadPuzzle E _ _
      rfl
  · have hdef : nextPuzzle E s =
        loadPuzzle E (s.currentPuzzleIndex + 1) (updateProgress
          { s with currentPuzzleIndex := s.currentPuzzleIndex + 1 }) := by
      simp only [nextPuzzle]
      rw [if_neg hw]
      rfl
    rw [hdef]
    refine ⟨?_, ?_, ?_, ?_, ?_⟩
    · show s.currentPuzzleIndex + 1 < puzzles.length
      omega
    · intro hge
      exact absurd hge hw
    · intro _
      exact ⟨rfl, rfl⟩
    · rfl
    · refine ⟨updateProgress
        { s with currentPuzzleIndex := s.currentPuzzleIndex + 1 },
        rfl, rfl, ?_⟩
      show loadPuzzle E (s.currentPuzzleIndex + 1) _ = loadPuzzle E _ _
      rfl

/-- Witness for C6: advancing from the last catalog index wraps to 0 with
the completion notification. -/
theorem nextPuzzle_advance_spec_witness :
    (nextPuzzle incEngine
      { initState 0 with currentPuzzleIndex := 2 }).currentPuzzleIndex = 0 ∧
    (nextPuzzle incEngine
      { initState 0 with currentPuzzleIndex := 2 }).alerts =
      ["¡Felicidades! Has completado todos los puzzles disponibles en esta demo."] := by
  have h := nextPuzzle_advance_spec incEngine
    { initState 0 with currentPuzzleIndex := 2 }
  have h2 := h.2.1 (by decide)
  exact ⟨h2.1, h2.2⟩

/-- Helper: `showHint` preserves the selection invariant. -/
theorem SelInv_showHint (E : ChessEngine γ) (s : SessionState γ)
    (h : SelInv E s) : SelInv E (showHint s) := by
  obtain ⟨hg, hsel, hleg, _⟩ := showHint_untouched s
  rcases h with ⟨h1, h2⟩ | ⟨sq, h1, h2⟩
  · exact Or.inl ⟨hsel.trans h1, hleg.trans h2⟩
  · exact Or.inr ⟨sq, hsel.trans h1, by rw [hleg, hg, h2]⟩

/-- Helper: the square-interaction handler preserves the selection
invariant. -/
theorem SelInv_handleClick (E : ChessEngine γ) (sq : String)
    (s : SessionState γ) (h : SelInv E s) :
    SelInv E (handleSquareClick E sq s) := by
  unfold handleSquareClick
  split
  · split
    · exact Or.inl (updateStatus_selection_clear E _ rfl rfl)
    · exact h
  · split
    · exact Or.inl ⟨rfl, rfl⟩
    · split
      · split
        · exact Or.inr ⟨sq, rfl, rfl⟩
        · exact Or.inl ⟨rfl, rfl⟩
      · exact Or.inl ⟨rfl, rfl⟩

/-- C7: in every state reachable from program start by any sequence of
operations (loadPuzzle, requestHint, square interaction, advance),
either nothing is selected and the legal-target set is empty, or a
square is selected and the legal-target set is exactly the destination
set the engine reports for it in the current position. -/
theorem selection_invariant_reachable (E : ChessEngine γ)
    (s : SessionState γ) (h : Reachable E s) : SelInv E s := by
  induction h with
  | start g0 => exact Or.inl ⟨rfl, rfl⟩
  | step hr hop ih =>
    cases hop with
    | click sq => exact SelInv_handleClick E sq _ ih
    | hint => exact SelInv_showHint E _ ih
    | load i => exact Or.inl ⟨rfl, rfl⟩
    | advance => exact Or.inl ⟨rfl, rfl⟩

/-- Witness for C7: the invariant holds at the freshly initialized
session. -/
theorem selection_invariant_reachable_witness :
    SelInv incEngine (initApp incEngine 0) :=
  selection_invariant_reachable incEngine _ (Reachable.start 0)

/-- Helper: a render appends one snapshot, and that snapshot shows the
state it was requested on. -/
theorem renderBoard_spec (s : SessionState γ) :
    (renderBoard s).renders.length = s.renders.length + 1 ∧
    lastRenderCurrent (renderBoard s) := by
  constructor
  · simp [renderBoard]
  · simp [lastRenderCurrent, renderBoard, List.getLast?_append_cons]

/-- Helper: a branch outcome of the form `renderBoard t`, with `t`
carrying the same render log as `s`, renders once more than `s` and its
last snapshot shows `t`. -/
theorem render_goal (s t : SessionState γ) (ht : t.renders = s.renders) :
    s.renders.length < (renderBoard t).renders.length ∧
    lastRenderCurrent (renderBoard t) := by
  refine ⟨?_, (renderBoard_spec t).2⟩
  have h := (renderBoard_spec t).1
  rw [ht] at h
  omega

/-- Helper: `updateStatus` always renders at least once and its last
render shows the resulting state's position and overlay. -/
theorem updateStatus_renders (E : ChessEngine γ) (s : SessionState γ) :
    s.renders.length < (updateStatus E s).renders.length ∧
    lastRenderCurrent (updateStatus E s) := by
  simp only [updateStatus]
  split
  · constructor
    · simp [renderBoard]
    · simp [lastRenderCurrent, renderBoard, List.getLast?_append_cons]
  · split
    · constructor
      · simp [loadPuzzle, renderBoard]
      · simp [lastRenderCurrent, loadPuzzle, renderBoard,
          List.getLast?_append_cons]
    · constructor
      · simp [renderBoard]
      · simp [lastRenderCurrent, renderBoard, List.getLast?_append_cons]

/-- C8 counterexample: with a selection made and the clicked square
inside the legal-target set, an engine-rejected move leaves the session
state — its render log included — entirely unchanged, so this branch of
the handler triggers no re-render. -/
theorem handleClick_rejected_no_render :
    handleSquareClick rejectEngine "e4" rejectState = rejectState ∧
    rejectState.renders = [] :=
  ⟨rfl, rfl⟩

/-- C8 (amended): every branch of the square-interaction handler except
the defensive engine-rejection branch triggers a re-render whose last
snapshot reflects the new position and selection/highlight overlay; in
the engine-rejection branch the state is unchanged and nothing is
re-rendered. -/
theorem handleClick_render_spec (E : ChessEngine γ) (sq : String)
    (s : SessionState γ) :
    ((∃ sel, s.selectedSquare = some sel ∧
        s.legalMoves.contains sq = true ∧
        E.move s.game { fromSq := sel, toSq := sq, promotion := 'q' }
          = none) →
      handleSquareClick E sq s = s) ∧
    ((¬ ∃ sel, s.selectedSquare = some sel ∧
        s.legalMoves.contains sq = true ∧
        E.move s.game { fromSq := sel, toSq := sq, promotion := 'q' }
          = none) →
      s.renders.length < (handleSquareClick E sq s).renders.length ∧
      lastRenderCurrent (handleSquareClick E sq s)) := by
  constructor
  · rintro ⟨sel, h1, h2, h3⟩
    simp only [handleSquareClick, h1, h2, h3]
  · intro hn
    rcases h1 : s.selectedSquare with _ | sel
    · -- no previous selection: occupant inspection, always a render
      have hne : (none : Option String) = some sq ↔ False := by simp
      rcases hget : E.get s.game sq with _ | piece
      · have hred : handleSquareClick E sq s =
            renderBoard { s with selectedSquare := none, legalMoves := [] } := by
          simp only [handleSquareClick, h1, hget, hne, if_false]
        rw [hred]
        exact render_goal s _ rfl
      · by_cases hcol : piece.color = E.turn s.game
        · have hred : handleSquareClick E sq s =
              renderBoard
                { s with selectedSquare := some sq
                       , legalMoves :=
                           (E.moves s.game sq).map VerboseMove.toSq } := by
            simp only [handleSquareClick, h1, hget, hne, if_false, if_pos hcol]
          rw [hred]
          exact render_goal s _ rfl
        · have hred : handleSquareClick E sq s =
              renderBoard { s with selectedSquare := none, legalMoves := [] } := by
            simp only [handleSquareClick, h1, hget, hne, if_false, if_neg hcol]
          rw [hred]
          exact render_goal s _ rfl
    · rcases hc : s.legalMoves.contains sq with _ | _
      · -- previous selection, clicked square not a legal target
        by_cases hsq : sel = sq
        · rw [hsq] at h1
          have hred : handleSquareClick E sq s =
              renderBoard { s with selectedSquare := none, legalMoves := [] } := by
            simp only [handleSquareClick, h1, hc]
            rw [if_pos trivial]
          rw [hred]
          exact render_goal s _ rfl
        · have hne : (some sel = some sq) ↔ False := by simp [hsq]
          rcases hget : E.get s.game sq with _ | piece
          · have hred : handleSquareClick E sq s =
                renderBoard { s with selectedSquare := none, legalMoves := [] } := by
              simp only [handleSquareClick, h1, hc, hget, hne, if_false]
            rw [hred]
            exact render_goal s _ rfl
          · by_cases hcol : piece.color = E.turn s.game
            · have hred : handleSquareClick E sq s =
                  renderBoard
                    { s with selectedSquare := some sq
                           , legalMoves :=
                               (E.moves s.game sq).map VerboseMove.toSq } := by
                simp only [handleSquareClick, h1, hc, hget, hne, if_false,
                  if_pos hcol]
              rw [hred]
              exact render_goal s _ rfl
            · have hred : handleSquareClick E sq s =
                  renderBoard { s with selectedSquare := none, legalMoves := [] } := by
                simp only [handleSquareClick, h1, hc, hget, hne, if_false,
                  if_neg hcol]
              rw [hred]
              exact render_goal s _ rfl
      · -- previous selection and a legal target: the move branch
        rcases hm : E.move s.game
            { fromSq := sel, toSq := sq, promotion := 'q' } with _ | g
        · exact absurd ⟨sel, h1, hc, hm⟩ hn
        · have hred : handleSquareClick E sq s =
              updateStatus E
                { s with game := g, selectedSquare := none
                       , legalMoves := [] } := by
            simp only [handleSquareClick, h1, hc, hm]
          rw [hred]
          have h := updateStatus_renders E
            { s with game := g, selectedSquare := none, legalMoves := [] }
          exact ⟨h.1, h.2⟩

/-- Witness for C8's amended theorem: clicking a square with no previous
selection renders once more and the snapshot shows the new selection. -/
theorem handleClick_render_spec_witness :
    (initState 0 : SessionState Nat).renders.length <
      (handleSquareClick incEngine "a1" (initState 0)).renders.length ∧
    lastRenderCurrent (handleSquareClick incEngine "a1" (initState 0)) := by
  have h := handleClick_render_spec incEngine "a1" (initState 0)
  refine h.2 ?_
  rintro ⟨sel, hsel, _⟩
  simp [initState] at hsel
